import Mathlib

/-!
Shallow embedding of `src/proxy.py` (class `Proxy`), the proxy fetch /
validation utility.  External collaborators (the HTTP source of the candidate
list, the liveness probe, the diskcache store) are modelled explicitly:

* the diskcache store is a record of the three keys the code uses
  (`working_proxy`, `http_proxies_requested`, `bad_proxies`), each an optional
  entry carrying the value together with the `expire` argument passed to
  `cache.set` (`none` = no expiry).  Expiry over time is not modelled; the
  claims under study only concern which TTL argument each write carries and
  behaviour while entries are present.
* the candidate source (`session.get(self.proxy_url)` + `response.json()` +
  the `proxy['proxy']` field accesses, lines 105-109) is an
  `Except Unit (List Endpoint)` in the environment: `Except.error` models an
  unreachable source, an invalid JSON reply or malformed records, all of which
  raise out of `_fetch_proxy` (there is no try/except around those lines);
  `Except.ok records` gives the list of `proxy` fields of the records.
* `_test_single_proxy` (lines 194-205) catches every exception and returns a
  boolean, so it is modelled as the pure function `healthy` of the
  environment (one `get_proxy` call is one run, so one health function).
* `asyncio.as_completed` in `_test_proxy_batch` launches a task for every
  candidate before results arrive, so the batch offers each of its candidates
  to the liveness checker; completion order is modelled as list order (no
  claim under study depends on the completion order of the batch).
* the call `self.get_proxy()` on line 121 is not awaited: it builds a
  coroutine object that is never executed and whose result is discarded, so
  the executed behaviour it contributes is a no-op; the model reflects the
  executed behaviour.

A `Trace` records the observable interactions of one run: every endpoint
offered to the liveness checker in order, every argument `_test_proxy_batch`
was invoked with, every `max_attempts` cap the sequential while-loop was
entered with, and the number of outbound candidate-list fetches.
-/

namespace ProxySpec

abbrev Endpoint := String

/-- Embeds Python list-of-chars prefix test used to build substring search:
`beginsWith l pat = true` iff `pat` is an initial segment of `l`. -/
def beginsWith : List Char → List Char → Bool
  | _, [] => true
  | [], _ :: _ => false
  | a :: as, b :: bs => a == b && beginsWith as bs

/-- Embeds the Python substring operator `pat in s` on character lists. -/
def containsL : List Char → List Char → Bool
  | [], pat => pat == []
  | a :: as, pat => beginsWith (a :: as) pat || containsL as pat

/-- Embeds the Python substring operator `pat in s` on strings. -/
def strContains (s pat : String) : Bool :=
  containsL s.toList pat.toList

/-- Line 110: `'172.67' in proxy['proxy'] or '172.64' in proxy['proxy']` —
the Cloudflare edge-server mark the parser excludes on. -/
def hasEdgeMark (p : Endpoint) : Bool :=
  strContains p "172.67" || strContains p "172.64"

/-- Lines 108-111: extract the `proxy` field of each record and drop entries
carrying the edge-server mark.  `records` is the list of `proxy` fields of
the parsed JSON array. -/
def parseProxyList (records : List Endpoint) : List Endpoint :=
  records.filter (fun p => !(hasEdgeMark p))

/-- One cache entry: the stored value and the `expire` argument given to
`diskcache.Cache.set` (`none` when no expiry was passed). -/
structure Entry (α : Type) where
  value : α
  ttl : Option Nat
deriving DecidableEq

/-- The three keys of the diskcache store the code uses. -/
structure Cache where
  working_proxy : Option (Entry Endpoint)
  http_proxies_requested : Option (Entry (List Endpoint))
  bad_proxies : Option (Entry (List Endpoint))
deriving DecidableEq

def Cache.empty : Cache := ⟨none, none, none⟩

/-- `self.cache.get('bad_proxies', set())` (lines 114, 132, 211). -/
def getBadProxies (c : Cache) : List Endpoint :=
  match c.bad_proxies with
  | some e => e.value
  | none => []

/-- `_cache_bad_proxy` (lines 207-214): read the bad set, add the endpoint
(set add, hence idempotent), store it back with no expiry. -/
def cacheBadProxy (c : Cache) (p : Endpoint) : Cache :=
  let bad := getBadProxies c
  let bad2 := if p ∈ bad then bad else bad ++ [p]
  { c with bad_proxies := some ⟨bad2, none⟩ }

/-- The configuration together with the behaviour of the external
collaborators during one run. -/
structure Env where
  proxy_url : Option String
  batch_size : Nat
  cache_expiry : Nat
  source : Except Unit (List Endpoint)
  healthy : Endpoint → Bool

/-- Observable interactions of one run. -/
structure Trace where
  checker_calls : List Endpoint
  batch_calls : List (List Endpoint)
  seq_caps : List Nat
  fetch_count : Nat
deriving DecidableEq

def emptyTrace : Trace := ⟨[], [], [], 0⟩

/-- The while loop of lines 149-164: pop candidates in list order while the
deque is non-empty and `attempts < max_attempts` (the fuel), probing each;
the first healthy one is written to `working_proxy` with no expiry and
returned, each failure is recorded by `_cache_bad_proxy`. -/
def sequentialTest (env : Env) :
    List Endpoint → Nat → Cache → Trace → Option Endpoint × Cache × Trace
  | [], _, c, t => (none, c, t)
  | _ :: _, 0, c, t => (none, c, t)
  | p :: rest, Nat.succ fuel, c, t =>
    let t1 := { t with checker_calls := t.checker_calls ++ [p] }
    if env.healthy p then
      (some p, { c with working_proxy := some ⟨p, none⟩ }, t1)
    else
      sequentialTest env rest fuel (cacheBadProxy c p) t1

/-- The result loop of `_test_proxy_batch` (lines 180-191) with completion
order modelled as list order: the first healthy candidate is written to
`working_proxy` with no expiry and returned, failures are recorded into the
bad set as they arrive. -/
def batchFindWorking (env : Env) : List Endpoint → Cache → Option Endpoint × Cache
  | [], c => (none, c)
  | p :: rest, c =>
    if env.healthy p then
      (some p, { c with working_proxy := some ⟨p, none⟩ })
    else
      batchFindWorking env rest (cacheBadProxy c p)

/-- `_test_proxy_batch` (lines 169-192): every candidate is launched as a
task (so each is offered to the liveness checker), the invocation itself is
recorded, then results are folded by `batchFindWorking`. -/
def test_proxy_batch (env : Env) (proxies : List Endpoint) (c : Cache) (t : Trace) :
    Option Endpoint × Cache × Trace :=
  let t1 := { t with checker_calls := t.checker_calls ++ proxies,
                     batch_calls := t.batch_calls ++ [proxies] }
  let rc := batchFindWorking env proxies c
  (rc.1, rc.2, t1)

/-- Lines 139-167 of `_fetch_proxy`, after `all_proxies` has been built:
compute `max_attempts = min(batch_size, len(all_proxies))`, run the batch
when `len(all_proxies) >= batch_size` and return its hit, otherwise (also
when the batch found nothing — the code falls through to the while loop over
the same unconsumed deque) run the sequential loop. -/
def afterListPhase (env : Env) (all_proxies : List Endpoint) (c : Cache) (t : Trace) :
    Option Endpoint × Cache × Trace :=
  let max_attempts := min env.batch_size all_proxies.length
  if env.batch_size ≤ all_proxies.length then
    match test_proxy_batch env all_proxies c t with
    | (some p, c1, t1) => (some p, c1, t1)
    | (none, c1, t1) =>
        sequentialTest env all_proxies max_attempts c1
          { t1 with seq_caps := t1.seq_caps ++ [max_attempts] }
  else
    sequentialTest env all_proxies max_attempts c
      { t with seq_caps := t.seq_caps ++ [max_attempts] }

/-- `_fetch_proxy` (lines 88-167).  `Except.error ()` is an exception
escaping to the caller (the unguarded source fetch / JSON parse).  On the
cache-miss branch the order of effects follows the code: parse and filter by
the edge mark (108-111), filter by the current bad set (114-115), on an empty
result delete `http_proxies_requested` (the un-awaited retry on line 121 is a
no-op, see the file comment), slice the first `batch_size` entries into the
deque (126), then unconditionally re-write `http_proxies_requested` with
`expire=cache_expiry` (129).  On the cache-hit branch (130-135) the cached
list is re-filtered by the current bad set and sliced; nothing is written. -/
def fetch_proxy (env : Env) (c : Cache) (t : Trace) :
    Except Unit (Option Endpoint × Cache × Trace) :=
  match env.proxy_url with
  | none => Except.ok (none, c, t)
  | some _ =>
    match c.http_proxies_requested with
    | none =>
      let t1 := { t with fetch_count := t.fetch_count + 1 }
      match env.source with
      | Except.error _ => Except.error ()
      | Except.ok records =>
        let parsed := parseProxyList records
        let bad := getBadProxies c
        let proxy_list := parsed.filter (fun p => decide (p ∉ bad))
        let c1 := if proxy_list.length = 0 then
            { c with http_proxies_requested := none } else c
        let all_proxies := proxy_list.take env.batch_size
        let c2 := { c1 with
          http_proxies_requested := some ⟨proxy_list, some env.cache_expiry⟩ }
        Except.ok (afterListPhase env all_proxies c2 t1)
    | some entry =>
      let bad := getBadProxies c
      let filtered := entry.value.filter (fun p => decide (p ∉ bad))
      let all_proxies := filtered.take env.batch_size
      Except.ok (afterListPhase env all_proxies c t)

/-- `get_proxy` (lines 60-86): when `working_proxy` is cached, revalidate it
through the liveness checker; healthy → return it unchanged, unhealthy →
delete the key and fall through to `_fetch_proxy`; on a missing key go to
`_fetch_proxy` directly. -/
def get_proxy (env : Env) (c : Cache) :
    Except Unit (Option Endpoint × Cache × Trace) :=
  match c.working_proxy with
  | some entry =>
    let t := { emptyTrace with checker_calls := [entry.value] }
    if env.healthy entry.value then
      Except.ok (some entry.value, c, t)
    else
      fetch_proxy env { c with working_proxy := none } t
  | none => fetch_proxy env c emptyTrace

/-- The filtered list a fresh fetch produces (lines 108-115): records parsed
and stripped of the edge mark, then stripped of the current bad set. -/
def freshFiltered (c : Cache) (rs : List Endpoint) : List Endpoint :=
  (parseProxyList rs).filter (fun p => decide (p ∉ getBadProxies c))

/-- The cache state right after line 129: the fresh filtered list stored
under `http_proxies_requested` with `expire=cache_expiry`. -/
def freshCache (env : Env) (c : Cache) (rs : List Endpoint) : Cache :=
  { c with http_proxies_requested := some ⟨freshFiltered c rs, some env.cache_expiry⟩ }

/-! ### Concrete configurations and inputs used in the runs below -/

def srcUrl : String := "http://proxy-source.example/data.json"

/-- Fresh call against a source whose only record falls in an excluded range
(the filtered candidate list comes out empty). -/
def envEmptySrc : Env :=
  ⟨some srcUrl, 1000, 86400, Except.ok ["172.67.1.1:8080"], fun _ => false⟩

/-- A source that is unreachable or answers with invalid JSON. -/
def envBadJson : Env :=
  ⟨some srcUrl, 1000, 86400, Except.error (), fun _ => false⟩

/-- All probes fail; the candidate list is already cached and holds the same
endpoint twice. -/
def envAllDown : Env := ⟨some srcUrl, 1000, 86400, Except.ok [], fun _ => false⟩

def cacheDupList : Cache :=
  ⟨none, some ⟨["9.9.9.9:80", "9.9.9.9:80"], some 86400⟩, none⟩

/-- The source records of Scenario A of the spec. -/
def scenarioARecords : List Endpoint := ["1.2.3.4:8080", "172.67.1.1:8080"]

def envScenA (healthy : Endpoint → Bool) : Env :=
  ⟨some srcUrl, 10, 86400, Except.ok scenarioARecords, healthy⟩

/-- Default configuration (batch size 1000, 24h TTL) over a given source. -/
def envBatch (rs : List Endpoint) (healthy : Endpoint → Bool) : Env :=
  ⟨some srcUrl, 1000, 86400, Except.ok rs, healthy⟩

/-- Two clean records, the second one already recorded as bad. -/
def envTwoRecords : Env :=
  ⟨some srcUrl, 1000, 86400, Except.ok ["1.1.1.1:80", "2.2.2.2:80"], fun _ => false⟩

def cacheBadSecond : Cache := ⟨none, none, some ⟨["2.2.2.2:80"], none⟩⟩

/-- One record, and every probe succeeds. -/
def envOneUp : Env :=
  ⟨some srcUrl, 1000, 86400, Except.ok ["3.3.3.3:80"], fun _ => true⟩

/-- No source URL configured. -/
def envNoUrl : Env := ⟨none, 1000, 86400, Except.ok [], fun _ => false⟩

/-- A stale cached working proxy (Scenario B of the spec). -/
def cacheStaleWp : Cache := ⟨some ⟨"5.6.7.8:3128", none⟩, none, none⟩

def envSrcB : Env := ⟨some srcUrl, 1000, 86400, Except.ok ["b"], fun _ => false⟩

def badOnlyCache : Cache := ⟨none, none, some ⟨["b"], none⟩⟩

/-- Binary digit characters of a natural number (least significant first);
used only to build concrete families of pairwise distinct endpoint names. -/
def bitChars : Nat → List Char
  | 0 => []
  | n + 1 => (if (n + 1) % 2 == 1 then '1' else '0') :: bitChars ((n + 1) / 2)
decreasing_by exact Nat.div_lt_self (Nat.succ_pos n) (by decide)

def unbitChars : List Char → Nat
  | [] => 0
  | c :: cs => (if c == '1' then 1 else 0) + 2 * unbitChars cs

/-- A concrete injective family of endpoint names free of the edge mark. -/
def epName (i : Nat) : Endpoint :=
  String.mk (bitChars i ++ [':', '8', '0', '8', '0'])

def cands (n : Nat) : List Endpoint := (List.range n).map epName

/-! ### Helper lemmas about the string scanner -/

theorem mem_of_beginsWith {l pat : List Char} (h : beginsWith l pat = true) :
    ∀ c ∈ pat, c ∈ l := by
  induction pat generalizing l with
  | nil => intro c hc; cases hc
  | cons b bs ih =>
    cases l with
    | nil => simp [beginsWith] at h
    | cons a as =>
      simp only [beginsWith, Bool.and_eq_true, beq_iff_eq] at h
      intro c hc
      rcases List.mem_cons.mp hc with hcb | hcbs
      · exact List.mem_cons.mpr (Or.inl (hcb.trans h.1.symm))
      · exact List.mem_cons.mpr (Or.inr (ih h.2 c hcbs))

theorem mem_of_containsL {l pat : List Char} (h : containsL l pat = true) :
    ∀ c ∈ pat, c ∈ l := by
  induction l with
  | nil =>
    simp only [containsL, beq_iff_eq] at h
    subst h; intro c hc; cases hc
  | cons a as ih =>
    simp only [containsL, Bool.or_eq_true] at h
    rcases h with h | h
    · exact mem_of_beginsWith h
    · intro c hc
      exact List.mem_cons.mpr (Or.inr (ih h c hc))

theorem containsL_of_beginsWith {l pat : List Char} (h : beginsWith l pat = true) :
    containsL l pat = true := by
  cases l with
  | nil =>
    cases pat with
    | nil => rfl
    | cons b bs => simp [beginsWith] at h
  | cons a as => simp [containsL, h]

theorem hasEdgeMark_false_of_no_dot {s : Endpoint} (h : '.' ∉ s.toList) :
    hasEdgeMark s = false := by
  unfold hasEdgeMark strContains
  rw [Bool.or_eq_false_iff]
  constructor
  · cases hc : containsL s.toList "172.67".toList with
    | false => rfl
    | true => exact absurd (mem_of_containsL hc '.' (by decide)) h
  · cases hc : containsL s.toList "172.64".toList with
    | false => rfl
    | true => exact absurd (mem_of_containsL hc '.' (by decide)) h

/-! ### Helper lemmas about the cache primitives -/

theorem cacheBadProxy_wp (c : Cache) (p : Endpoint) :
    (cacheBadProxy c p).working_proxy = c.working_proxy := by
  unfold cacheBadProxy; rfl

theorem cacheBadProxy_http (c : Cache) (p : Endpoint) :
    (cacheBadProxy c p).http_proxies_requested = c.http_proxies_requested := by
  unfold cacheBadProxy; rfl

theorem cacheBadProxy_bad (c : Cache) (p : Endpoint) :
    ∃ l2, (cacheBadProxy c p).bad_proxies = some ⟨l2, none⟩ := by
  unfold cacheBadProxy
  exact ⟨_, rfl⟩

/-! ### Helper lemmas about the sequential test loop -/

theorem sequentialTest_rest_trace (env : Env) (l : List Endpoint) (n : Nat)
    (c : Cache) (t : Trace) :
    (sequentialTest env l n c t).2.2.batch_calls = t.batch_calls ∧
    (sequentialTest env l n c t).2.2.seq_caps = t.seq_caps ∧
    (sequentialTest env l n c t).2.2.fetch_count = t.fetch_count := by
  induction l generalizing n c t with
  | nil => exact ⟨rfl, rfl, rfl⟩
  | cons p rest ih =>
    cases n with
    | zero => exact ⟨rfl, rfl, rfl⟩
    | succ fuel =>
      cases hp : env.healthy p with
      | true => simp [sequentialTest, hp]
      | false => simpa [sequentialTest, hp] using ih fuel _ _

theorem sequentialTest_calls (env : Env) (l : List Endpoint) (n : Nat)
    (c : Cache) (t : Trace) :
    ∀ q ∈ (sequentialTest env l n c t).2.2.checker_calls,
      q ∈ t.checker_calls ∨ q ∈ l := by
  induction l generalizing n c t with
  | nil => intro q hq; exact Or.inl hq
  | cons p rest ih =>
    cases n with
    | zero => intro q hq; exact Or.inl hq
    | succ fuel =>
      intro q hq
      cases hp : env.healthy p with
      | true =>
        simp only [sequentialTest, hp, if_true] at hq
        rcases List.mem_append.mp hq with h | h
        · exact Or.inl h
        · exact Or.inr (List.mem_cons.mpr (Or.inl (List.mem_singleton.mp h)))
      | false =>
        simp only [sequentialTest, hp, Bool.false_eq_true, if_false] at hq
        rcases ih fuel _ _ q hq with h | h
        · rcases List.mem_append.mp h with h | h
          · exact Or.inl h
          · exact Or.inr (List.mem_cons.mpr (Or.inl (List.mem_singleton.mp h)))
        · exact Or.inr (List.mem_cons.mpr (Or.inr h))

theorem sequentialTest_calls_len (env : Env) (l : List Endpoint) (n : Nat)
    (c : Cache) (t : Trace) :
    (sequentialTest env l n c t).2.2.checker_calls.length ≤
      t.checker_calls.length + n := by
  induction l generalizing n c t with
  | nil => exact Nat.le_add_right _ _
  | cons p rest ih =>
    cases n with
    | zero => exact Nat.le_add_right _ _
    | succ fuel =>
      cases hp : env.healthy p with
      | true =>
        simp only [sequentialTest, hp, if_true]
        simp only [List.length_append, List.length_cons, List.length_nil]
        omega
      | false =>
        simp only [sequentialTest, hp, Bool.false_eq_true, if_false]
        calc (sequentialTest env rest fuel (cacheBadProxy c p)
                { t with checker_calls := t.checker_calls ++ [p] }).2.2.checker_calls.length
            ≤ (t.checker_calls ++ [p]).length + fuel := ih fuel _ _
          _ = t.checker_calls.length + (fuel + 1) := by
              simp only [List.length_append, List.length_cons, List.length_nil]
              omega

theorem sequentialTest_wp (env : Env) (l : List Endpoint) (n : Nat)
    (c : Cache) (t : Trace) :
    ((sequentialTest env l n c t).1 = none ∧
      (sequentialTest env l n c t).2.1.working_proxy = c.working_proxy) ∨
    ∃ p, (sequentialTest env l n c t).1 = some p ∧ env.healthy p = true ∧
      (sequentialTest env l n c t).2.1.working_proxy = some ⟨p, none⟩ := by
  induction l generalizing n c t with
  | nil => exact Or.inl ⟨rfl, rfl⟩
  | cons p rest ih =>
    cases n with
    | zero => exact Or.inl ⟨rfl, rfl⟩
    | succ fuel =>
      cases hp : env.healthy p with
      | true =>
        refine Or.inr ⟨p, ?_, hp, ?_⟩ <;> simp [sequentialTest, hp]
      | false =>
        have := ih fuel (cacheBadProxy c p)
          { t with checker_calls := t.checker_calls ++ [p] }
        simp only [sequentialTest, hp, Bool.false_eq_true, if_false]
        rcases this with ⟨h1, h2⟩ | ⟨q, h1, h2, h3⟩
        · exact Or.inl ⟨h1, h2.trans (cacheBadProxy_wp c p)⟩
        · exact Or.inr ⟨q, h1, h2, h3⟩

theorem sequentialTest_http (env : Env) (l : List Endpoint) (n : Nat)
    (c : Cache) (t : Trace) :
    (sequentialTest env l n c t).2.1.http_proxies_requested =
      c.http_proxies_requested := by
  induction l generalizing n c t with
  | nil => rfl
  | cons p rest ih =>
    cases n with
    | zero => rfl
    | succ fuel =>
      cases hp : env.healthy p with
      | true => simp [sequentialTest, hp]
      | false =>
        simp only [sequentialTest, hp, Bool.false_eq_true, if_false]
        exact (ih fuel _ _).trans (cacheBadProxy_http c p)

theorem sequentialTest_bad (env : Env) (l : List Endpoint) (n : Nat)
    (c : Cache) (t : Trace) :
    (sequentialTest env l n c t).2.1.bad_proxies = c.bad_proxies ∨
    ∃ l2, (sequentialTest env l n c t).2.1.bad_proxies = some ⟨l2, none⟩ := by
  induction l generalizing n c t with
  | nil => exact Or.inl rfl
  | cons p rest ih =>
    cases n with
    | zero => exact Or.inl rfl
    | succ fuel =>
      cases hp : env.healthy p with
      | true => exact Or.inl (by simp [sequentialTest, hp])
      | false =>
        simp only [sequentialTest, hp, Bool.false_eq_true, if_false]
        rcases ih fuel (cacheBadProxy c p)
            { t with checker_calls := t.checker_calls ++ [p] } with h | ⟨l2, h⟩
        · obtain ⟨l2, h2⟩ := cacheBadProxy_bad c p
          exact Or.inr ⟨l2, h.trans h2⟩
        · exact Or.inr ⟨l2, h⟩

/-! ### Helper lemmas about the batch test -/

theorem batchFindWorking_wp (env : Env) (l : List Endpoint) (c : Cache) :
    ((batchFindWorking env l c).1 = none ∧
      (batchFindWorking env l c).2.working_proxy = c.working_proxy) ∨
    ∃ p, (batchFindWorking env l c).1 = some p ∧ env.healthy p = true ∧
      (batchFindWorking env l c).2.working_proxy = some ⟨p, none⟩ := by
  induction l generalizing c with
  | nil => exact Or.inl ⟨rfl, rfl⟩
  | cons p rest ih =>
    cases hp : env.healthy p with
    | true => refine Or.inr ⟨p, ?_, hp, ?_⟩ <;> simp [batchFindWorking, hp]
    | false =>
      simp only [batchFindWorking, hp, Bool.false_eq_true, if_false]
      rcases ih (cacheBadProxy c p) with ⟨h1, h2⟩ | ⟨q, h1, h2, h3⟩
      · exact Or.inl ⟨h1, h2.trans (cacheBadProxy_wp c p)⟩
      · exact Or.inr ⟨q, h1, h2, h3⟩

theorem batchFindWorking_http (env : Env) (l : List Endpoint) (c : Cache) :
    (batchFindWorking env l c).2.http_proxies_requested =
      c.http_proxies_requested := by
  induction l generalizing c with
  | nil => rfl
  | cons p rest ih =>
    cases hp : env.healthy p with
    | true => simp [batchFindWorking, hp]
    | false =>
      simp only [batchFindWorking, hp, Bool.false_eq_true, if_false]
      exact (ih _).trans (cacheBadProxy_http c p)

theorem batchFindWorking_bad (env : Env) (l : List Endpoint) (c : Cache) :
    (batchFindWorking env l c).2.bad_proxies = c.bad_proxies ∨
    ∃ l2, (batchFindWorking env l c).2.bad_proxies = some ⟨l2, none⟩ := by
  induction l generalizing c with
  | nil => exact Or.inl rfl
  | cons p rest ih =>
    cases hp : env.healthy p with
    | true => exact Or.inl (by simp [batchFindWorking, hp])
    | false =>
      simp only [batchFindWorking, hp, Bool.false_eq_true, if_false]
      rcases ih (cacheBadProxy c p) with h | ⟨l2, h⟩
      · obtain ⟨l2, h2⟩ := cacheBadProxy_bad c p
        exact Or.inr ⟨l2, h.trans h2⟩
      · exact Or.inr ⟨l2, h⟩

theorem test_proxy_batch_eq (env : Env) (l : List Endpoint) (c : Cache) (t : Trace) :
    test_proxy_batch env l c t =
      ((batchFindWorking env l c).1, (batchFindWorking env l c).2,
        { t with checker_calls := t.checker_calls ++ l,
                 batch_calls := t.batch_calls ++ [l] }) := rfl

/-! ### Helper lemmas about the post-list phase (batch cutover + while loop) -/

theorem afterListPhase_calls (env : Env) (l : List Endpoint) (c : Cache) (t : Trace) :
    ∀ q ∈ (afterListPhase env l c t).2.2.checker_calls,
      q ∈ t.checker_calls ∨ q ∈ l := by
  unfold afterListPhase
  split
  · rw [test_proxy_batch_eq]
    rcases hb : (batchFindWorking env l c).1 with _ | p
    · simp only [hb]
      intro q hq
      rcases sequentialTest_calls env l (min env.batch_size l.length) _ _ q hq with h | h
      · rcases List.mem_append.mp h with h | h
        · exact Or.inl h
        · exact Or.inr h
      · exact Or.inr h
    · simp only [hb]
      intro q hq
      rcases List.mem_append.mp hq with h | h
      · exact Or.inl h
      · exact Or.inr h
  · intro q hq
    rcases sequentialTest_calls env l (min env.batch_size l.length) _ _ q hq with h | h
    · exact Or.inl h
    · exact Or.inr h

theorem afterListPhase_http (env : Env) (l : List Endpoint) (c : Cache) (t : Trace) :
    (afterListPhase env l c t).2.1.http_proxies_requested =
      c.http_proxies_requested := by
  unfold afterListPhase
  split
  · rw [test_proxy_batch_eq]
    rcases hb : (batchFindWorking env l c).1 with _ | p
    · simp only [hb]
      exact (sequentialTest_http env l _ _ _).trans (batchFindWorking_http env l c)
    · simp only [hb]
      exact batchFindWorking_http env l c
  · exact sequentialTest_http env l _ _ _

theorem afterListPhase_wp (env : Env) (l : List Endpoint) (c : Cache) (t : Trace) :
    ((afterListPhase env l c t).1 = none ∧
      (afterListPhase env l c t).2.1.working_proxy = c.working_proxy) ∨
    ∃ p, (afterListPhase env l c t).1 = some p ∧ env.healthy p = true ∧
      (afterListPhase env l c t).2.1.working_proxy = some ⟨p, none⟩ := by
  unfold afterListPhase
  split
  · rw [test_proxy_batch_eq]
    have hbatch := batchFindWorking_wp env l c
    rcases hb : (batchFindWorking env l c).1 with _ | p
    · rw [hb] at hbatch
      simp only [hb]
      rcases hbatch with ⟨_, h2⟩ | ⟨q, h1, _, _⟩
      · rcases sequentialTest_wp env l (min env.batch_size l.length)
            (batchFindWorking env l c).2
            { t with checker_calls := t.checker_calls ++ l,
                     batch_calls := t.batch_calls ++ [l],
                     seq_caps := t.seq_caps ++ [min env.batch_size l.length] } with
          ⟨g1, g2⟩ | ⟨q, g1, g2, g3⟩
        · exact Or.inl ⟨g1, g2.trans h2⟩
        · exact Or.inr ⟨q, g1, g2, g3⟩
      · exact absurd h1 (by simp)
    · rw [hb] at hbatch
      simp only [hb]
      rcases hbatch with ⟨h1, _⟩ | ⟨q, h1, h2, h3⟩
      · exact absurd h1 (by simp)
      · rw [Option.some.injEq] at h1
        subst h1
        exact Or.inr ⟨p, rfl, h2, h3⟩
  · rcases sequentialTest_wp env l (min env.batch_size l.length) c
        { t with seq_caps := t.seq_caps ++ [min env.batch_size l.length] } with
      ⟨g1, g2⟩ | ⟨q, g1, g2, g3⟩
    · exact Or.inl ⟨g1, g2⟩
    · exact Or.inr ⟨q, g1, g2, g3⟩

theorem afterListPhase_bad (env : Env) (l : List Endpoint) (c : Cache) (t : Trace) :
    (afterListPhase env l c t).2.1.bad_proxies = c.bad_proxies ∨
    ∃ l2, (afterListPhase env l c t).2.1.bad_proxies = some ⟨l2, none⟩ := by
  unfold afterListPhase
  split
  · rw [test_proxy_batch_eq]
    have hbatch := batchFindWorking_bad env l c
    rcases hb : (batchFindWorking env l c).1 with _ | p
    · simp only [hb]
      rcases sequentialTest_bad env l (min env.batch_size l.length)
          (batchFindWorking env l c).2
          { t with checker_calls := t.checker_calls ++ l,
                   batch_calls := t.batch_calls ++ [l],
                   seq_caps := t.seq_caps ++ [min env.batch_size l.length] } with
        g | ⟨l2, g⟩
      · rcases hbatch with h | ⟨l2, h⟩
        · exact Or.inl (g.trans h)
        · exact Or.inr ⟨l2, g.trans h⟩
      · exact Or.inr ⟨l2, g⟩
    · simp only [hb]
      exact hbatch
  · exact sequentialTest_bad env l _ _ _

theorem afterListPhase_nil (env : Env) (c : Cache) (t : Trace) :
    (afterListPhase env [] c t).1 = none ∧
    (afterListPhase env [] c t).2.1 = c ∧
    (afterListPhase env [] c t).2.2.checker_calls = t.checker_calls ∧
    (afterListPhase env [] c t).2.2.fetch_count = t.fetch_count := by
  unfold afterListPhase
  split
  · rw [test_proxy_batch_eq]
    simp [batchFindWorking, sequentialTest]
  · simp [sequentialTest]

/-! ### Reduction lemmas for `fetch_proxy` and `get_proxy` -/

theorem fetch_proxy_no_url (env : Env) (c : Cache) (t : Trace)
    (hu : env.proxy_url = none) :
    fetch_proxy env c t = Except.ok (none, c, t) := by
  unfold fetch_proxy
  rw [hu]

theorem fetch_proxy_err (env : Env) (c : Cache) (t : Trace) (u : String)
    (hu : env.proxy_url = some u) (hm : c.http_proxies_requested = none)
    (hs : env.source = Except.error ()) :
    fetch_proxy env c t = Except.error () := by
  unfold fetch_proxy
  rw [hu, hm, hs]

theorem fetch_proxy_miss (env : Env) (c : Cache) (t : Trace) (u : String)
    (rs : List Endpoint)
    (hu : env.proxy_url = some u) (hm : c.http_proxies_requested = none)
    (hs : env.source = Except.ok rs) :
    fetch_proxy env c t =
      Except.ok (afterListPhase env
        ((freshFiltered c rs).take env.batch_size) (freshCache env c rs)
        { t with fetch_count := t.fetch_count + 1 }) := by
  unfold fetch_proxy
  rw [hu, hm, hs]
  dsimp only
  by_cases hz :
      ((parseProxyList rs).filter (fun p => decide (p ∉ getBadProxies c))).length = 0
  · rw [if_pos hz]
    rfl
  · rw [if_neg hz]
    rfl

theorem fetch_proxy_hit (env : Env) (c : Cache) (t : Trace) (u : String)
    (entry : Entry (List Endpoint))
    (hu : env.proxy_url = some u) (hm : c.http_proxies_requested = some entry) :
    fetch_proxy env c t =
      Except.ok (afterListPhase env
        ((entry.value.filter
            (fun p => decide (p ∉ getBadProxies c))).take env.batch_size) c t) := by
  unfold fetch_proxy
  rw [hu, hm]

theorem fetch_proxy_ok_of_source_ok (env : Env) (c : Cache) (t : Trace)
    (rs : List Endpoint) (hs : env.source = Except.ok rs) :
    ∃ v, fetch_proxy env c t = Except.ok v := by
  rcases hu : env.proxy_url with _ | u
  · exact ⟨_, fetch_proxy_no_url env c t hu⟩
  · rcases hm : c.http_proxies_requested with _ | entry
    · exact ⟨_, fetch_proxy_miss env c t u rs hu hm hs⟩
    · exact ⟨_, fetch_proxy_hit env c t u entry hu hm⟩

theorem fetch_proxy_wp (env : Env) (c : Cache) (t : Trace)
    (r : Option Endpoint) (c' : Cache) (t' : Trace)
    (h : fetch_proxy env c t = Except.ok (r, c', t')) :
    (r = none ∧ c'.working_proxy = c.working_proxy) ∨
    ∃ p, r = some p ∧ env.healthy p = true ∧
      c'.working_proxy = some ⟨p, none⟩ := by
  rcases hu : env.proxy_url with _ | u
  · rw [fetch_proxy_no_url env c t hu] at h
    simp only [Except.ok.injEq, Prod.mk.injEq] at h
    obtain ⟨h1, h2, h3⟩ := h
    subst h1; subst h2
    exact Or.inl ⟨rfl, rfl⟩
  · rcases hm : c.http_proxies_requested with _ | entry
    · rcases hs : env.source with e | rs
      · cases e
        rw [fetch_proxy_err env c t u hu hm hs] at h
        cases h
      · rw [fetch_proxy_miss env c t u rs hu hm hs] at h
        simp only [Except.ok.injEq] at h
        have := afterListPhase_wp env
          ((freshFiltered c rs).take env.batch_size) (freshCache env c rs)
          { t with fetch_count := t.fetch_count + 1 }
        rw [h] at this
        exact this
    · rw [fetch_proxy_hit env c t u entry hu hm] at h
      simp only [Except.ok.injEq] at h
      have := afterListPhase_wp env
        ((entry.value.filter
            (fun p => decide (p ∉ getBadProxies c))).take env.batch_size) c t
      rw [h] at this
      exact this

theorem fetch_proxy_calls (env : Env) (c : Cache) (t : Trace)
    (r : Option Endpoint) (c' : Cache) (t' : Trace)
    (h : fetch_proxy env c t = Except.ok (r, c', t')) :
    ∀ q ∈ t'.checker_calls, q ∈ t.checker_calls ∨ q ∉ getBadProxies c := by
  rcases hu : env.proxy_url with _ | u
  · rw [fetch_proxy_no_url env c t hu] at h
    simp only [Except.ok.injEq, Prod.mk.injEq] at h
    obtain ⟨_, _, h3⟩ := h
    subst h3
    intro q hq
    exact Or.inl hq
  · rcases hm : c.http_proxies_requested with _ | entry
    · rcases hs : env.source with e | rs
      · cases e
        rw [fetch_proxy_err env c t u hu hm hs] at h
        cases h
      · rw [fetch_proxy_miss env c t u rs hu hm hs] at h
        simp only [Except.ok.injEq] at h
        intro q hq
        have hcalls := afterListPhase_calls env
          ((freshFiltered c rs).take env.batch_size) (freshCache env c rs)
          { t with fetch_count := t.fetch_count + 1 }
        rw [h] at hcalls
        rcases hcalls q hq with hc | hc
        · exact Or.inl hc
        · have hmem := List.take_subset env.batch_size _ hc
          have := (List.mem_filter.mp hmem).2
          rw [decide_eq_true_iff] at this
          exact Or.inr this
    · rw [fetch_proxy_hit env c t u entry hu hm] at h
      simp only [Except.ok.injEq] at h
      intro q hq
      have hcalls := afterListPhase_calls env
        ((entry.value.filter
            (fun p => decide (p ∉ getBadProxies c))).take env.batch_size) c t
      rw [h] at hcalls
      rcases hcalls q hq with hc | hc
      · exact Or.inl hc
      · have hmem := List.take_subset env.batch_size _ hc
        have := (List.mem_filter.mp hmem).2
        rw [decide_eq_true_iff] at this
        exact Or.inr this

theorem fetch_proxy_http (env : Env) (c : Cache) (t : Trace)
    (r : Option Endpoint) (c' : Cache) (t' : Trace)
    (h : fetch_proxy env c t = Except.ok (r, c', t')) :
    c'.http_proxies_requested = c.http_proxies_requested ∨
    ∃ l, c'.http_proxies_requested = some ⟨l, some env.cache_expiry⟩ := by
  rcases hu : env.proxy_url with _ | u
  · rw [fetch_proxy_no_url env c t hu] at h
    simp only [Except.ok.injEq, Prod.mk.injEq] at h
    obtain ⟨_, h2, _⟩ := h
    subst h2
    exact Or.inl rfl
  · rcases hm : c.http_proxies_requested with _ | entry
    · rcases hs : env.source with e | rs
      · cases e
        rw [fetch_proxy_err env c t u hu hm hs] at h
        cases h
      · rw [fetch_proxy_miss env c t u rs hu hm hs] at h
        simp only [Except.ok.injEq] at h
        have hh := afterListPhase_http env
          ((freshFiltered c rs).take env.batch_size) (freshCache env c rs)
          { t with fetch_count := t.fetch_count + 1 }
        rw [h] at hh
        exact Or.inr ⟨_, hh⟩
    · rw [fetch_proxy_hit env c t u entry hu hm] at h
      simp only [Except.ok.injEq] at h
      have hh := afterListPhase_http env
        ((entry.value.filter
            (fun p => decide (p ∉ getBadProxies c))).take env.batch_size) c t
      rw [h] at hh
      exact Or.inl (hh.trans hm)

theorem fetch_proxy_bad (env : Env) (c : Cache) (t : Trace)
    (r : Option Endpoint) (c' : Cache) (t' : Trace)
    (h : fetch_proxy env c t = Except.ok (r, c', t')) :
    c'.bad_proxies = c.bad_proxies ∨
    ∃ l2, c'.bad_proxies = some ⟨l2, none⟩ := by
  rcases hu : env.proxy_url with _ | u
  · rw [fetch_proxy_no_url env c t hu] at h
    simp only [Except.ok.injEq, Prod.mk.injEq] at h
    obtain ⟨_, h2, _⟩ := h
    subst h2
    exact Or.inl rfl
  · rcases hm : c.http_proxies_requested with _ | entry
    · rcases hs : env.source with e | rs
      · cases e
        rw [fetch_proxy_err env c t u hu hm hs] at h
        cases h
      · rw [fetch_proxy_miss env c t u rs hu hm hs] at h
        simp only [Except.ok.injEq] at h
        have hh := afterListPhase_bad env
          ((freshFiltered c rs).take env.batch_size) (freshCache env c rs)
          { t with fetch_count := t.fetch_count + 1 }
        rw [h] at hh
        exact hh
    · rw [fetch_proxy_hit env c t u entry hu hm] at h
      simp only [Except.ok.injEq] at h
      have hh := afterListPhase_bad env
        ((entry.value.filter
            (fun p => decide (p ∉ getBadProxies c))).take env.batch_size) c t
      rw [h] at hh
      exact hh

theorem get_proxy_no_wp (env : Env) (c : Cache) (hw : c.working_proxy = none) :
    get_proxy env c = fetch_proxy env c emptyTrace := by
  unfold get_proxy
  rw [hw]

theorem get_proxy_wp_healthy (env : Env) (c : Cache) (entry : Entry Endpoint)
    (hw : c.working_proxy = some entry) (hh : env.healthy entry.value = true) :
    get_proxy env c =
      Except.ok (some entry.value, c,
        { emptyTrace with checker_calls := [entry.value] }) := by
  unfold get_proxy
  rw [hw]
  dsimp only
  rw [hh]
  rfl

theorem get_proxy_wp_unhealthy (env : Env) (c : Cache) (entry : Entry Endpoint)
    (hw : c.working_proxy = some entry) (hh : env.healthy entry.value = false) :
    get_proxy env c =
      fetch_proxy env { c with working_proxy := none }
        { emptyTrace with checker_calls := [entry.value] } := by
  unfold get_proxy
  rw [hw]
  dsimp only
  rw [hh]
  rfl

/-! ### Shape lemmas for the batch cutover -/

theorem afterListPhase_lt (env : Env) (l : List Endpoint) (c : Cache) (t : Trace)
    (h : l.length < env.batch_size) :
    afterListPhase env l c t =
      sequentialTest env l (min env.batch_size l.length) c
        { t with seq_caps := t.seq_caps ++ [min env.batch_size l.length] } := by
  unfold afterListPhase
  rw [if_neg (Nat.not_le.mpr h)]

theorem afterListPhase_ge_some (env : Env) (l : List Endpoint) (c : Cache) (t : Trace)
    (p : Endpoint) (hge : env.batch_size ≤ l.length)
    (hb : (batchFindWorking env l c).1 = some p) :
    afterListPhase env l c t =
      (some p, (batchFindWorking env l c).2,
        { t with checker_calls := t.checker_calls ++ l,
                 batch_calls := t.batch_calls ++ [l] }) := by
  unfold afterListPhase
  rw [if_pos hge, test_proxy_batch_eq, hb]

theorem afterListPhase_ge_none (env : Env) (l : List Endpoint) (c : Cache) (t : Trace)
    (hge : env.batch_size ≤ l.length)
    (hb : (batchFindWorking env l c).1 = none) :
    afterListPhase env l c t =
      sequentialTest env l (min env.batch_size l.length) (batchFindWorking env l c).2
        { t with checker_calls := t.checker_calls ++ l,
                 batch_calls := t.batch_calls ++ [l],
                 seq_caps := t.seq_caps ++ [min env.batch_size l.length] } := by
  unfold afterListPhase
  rw [if_pos hge, test_proxy_batch_eq, hb]

/-- One-candidate sequential run: the checker is offered exactly that
candidate, whatever the probe outcome. -/
theorem sequentialTest_single_calls (env : Env) (p : Endpoint) (n : Nat)
    (c : Cache) (t : Trace) :
    (sequentialTest env [p] (n + 1) c t).2.2.checker_calls =
      t.checker_calls ++ [p] := by
  cases hp : env.healthy p with
  | true => simp [sequentialTest, hp]
  | false => simp [sequentialTest, hp]

/-! ### Facts about the fresh filter and the concrete name family -/

theorem freshFiltered_clean (c : Cache) (rs : List Endpoint)
    (hc : ∀ p ∈ rs, hasEdgeMark p = false) (hb : getBadProxies c = []) :
    freshFiltered c rs = rs := by
  have h1 : parseProxyList rs = rs :=
    List.filter_eq_self.mpr (fun p hp => by rw [hc p hp]; rfl)
  unfold freshFiltered
  rw [h1, hb]
  exact List.filter_eq_self.mpr (fun p hp => by simp)

theorem unbitChars_bitChars (n : Nat) : unbitChars (bitChars n) = n := by
  induction n using Nat.strong_induction_on with
  | _ n ih =>
    match n with
    | 0 =>
      rw [bitChars]
      rfl
    | m + 1 =>
      rw [bitChars]
      have hlt : (m + 1) / 2 < m + 1 := Nat.div_lt_self (Nat.succ_pos m) (by decide)
      rw [unbitChars, ih _ hlt]
      rcases Nat.mod_two_eq_zero_or_one (m + 1) with h | h
      · rw [h]
        show 0 + 2 * ((m + 1) / 2) = m + 1
        omega
      · rw [h]
        show 1 + 2 * ((m + 1) / 2) = m + 1
        omega

theorem bitChars_injective : Function.Injective bitChars := by
  intro a b h
  have h2 := congrArg unbitChars h
  rwa [unbitChars_bitChars, unbitChars_bitChars] at h2

theorem epName_injective : Function.Injective epName := by
  intro a b h
  have h2 : bitChars a ++ [':', '8', '0', '8', '0'] =
      bitChars b ++ [':', '8', '0', '8', '0'] := congrArg String.data h
  exact bitChars_injective (List.append_cancel_right h2)

theorem bitChars_mem (n : Nat) : ∀ ch ∈ bitChars n, ch = '0' ∨ ch = '1' := by
  induction n using Nat.strong_induction_on with
  | _ n ih =>
    match n with
    | 0 =>
      intro ch hch
      rw [bitChars] at hch
      cases hch
    | m + 1 =>
      intro ch hch
      rw [bitChars] at hch
      rcases List.mem_cons.mp hch with h | h
      · by_cases hb : ((m + 1) % 2 == 1) = true
        · rw [if_pos hb] at h
          exact Or.inr h
        · rw [if_neg hb] at h
          exact Or.inl h
      · exact ih _ (Nat.div_lt_self (Nat.succ_pos m) (by decide)) ch h

theorem epName_no_dot (i : Nat) : '.' ∉ (epName i).toList := by
  intro hmem
  have hmem2 : '.' ∈ bitChars i ++ [':', '8', '0', '8', '0'] := hmem
  rcases List.mem_append.mp hmem2 with h | h
  · rcases bitChars_mem i '.' h with h2 | h2 <;> cases h2
  · exact absurd h (by decide)

theorem epName_clean (i : Nat) : hasEdgeMark (epName i) = false :=
  hasEdgeMark_false_of_no_dot (epName_no_dot i)

theorem cands_length (n : Nat) : (cands n).length = n := by
  simp [cands]

theorem cands_nodup (n : Nat) : (cands n).Nodup :=
  (List.nodup_range n).map epName_injective

theorem cands_clean (n : Nat) : ∀ p ∈ cands n, hasEdgeMark p = false := by
  intro p hp
  simp only [cands, List.mem_map] at hp
  obtain ⟨i, _, rfl⟩ := hp
  exact epName_clean i

/-! ## Claim theorems -/

/-- C1 (code-bug evidence): the spec says that on an empty filtered candidate
list the cache entry is deleted and the fetch is retried exactly once.  The
code deletes the entry, but the retry `self.get_proxy()` on line 121 is
built without `await` and its result is discarded, so no retry fetch ever
runs: on a fresh call whose only record falls in an excluded range, exactly
one outbound fetch happens (`fetch_count = 1`), the liveness checker is
never consulted, the empty filtered list is re-cached with the configured
TTL, and the call returns no proxy. -/
theorem get_proxy_empty_list_single_fetch :
    get_proxy envEmptySrc Cache.empty =
      Except.ok (none, ⟨none, some ⟨[], some 86400⟩, none⟩, ⟨[], [], [0], 1⟩) := rfl

/-- C2 counterexample: when the candidate source is unreachable or replies
with invalid JSON, the unguarded `session.get` / `response.json()` calls on
lines 105-106 raise out of `get_proxy`; the failure does not collapse to
`none`, refuting the claim that the public operation never raises. -/
theorem get_proxy_raises_on_bad_source :
    get_proxy envBadJson Cache.empty = Except.error () := rfl

/-- C2 amended: `get_proxy` never raises provided the candidate-source fetch
and JSON parse succeed; liveness-probe failures, cache misses and empty
candidate lists all collapse to an `Except.ok` result. -/
theorem get_proxy_no_raise_of_source_ok (env : Env) (c : Cache)
    (rs : List Endpoint) (hs : env.source = Except.ok rs) :
    ∃ v, get_proxy env c = Except.ok v := by
  rcases hw : c.working_proxy with _ | entry
  · rw [get_proxy_no_wp env c hw]
    exact fetch_proxy_ok_of_source_ok env c emptyTrace rs hs
  · cases hh : env.healthy entry.value with
    | true => exact ⟨_, get_proxy_wp_healthy env c entry hw hh⟩
    | false =>
      rw [get_proxy_wp_unhealthy env c entry hw hh]
      exact fetch_proxy_ok_of_source_ok env _ _ rs hs

/-- C2 witness. -/
theorem get_proxy_no_raise_of_source_ok_witness :
    ∃ v, get_proxy envAllDown Cache.empty = Except.ok v :=
  get_proxy_no_raise_of_source_ok envAllDown Cache.empty [] rfl

/-- C3 counterexample: the candidate list may hold the same endpoint twice;
with the cached list `[e, e]` and `e` unhealthy, the liveness checker is
invoked on `e` a second time after `e`'s first failure put it into the bad
set (the while loop of lines 149-164 never re-reads the bad set within a
call), refuting "never invoked again within the same cache generation". -/
theorem get_proxy_retests_duplicate_bad_endpoint :
    (get_proxy envAllDown cacheDupList =
      Except.ok (none,
        ⟨none, some ⟨["9.9.9.9:80", "9.9.9.9:80"], some 86400⟩,
          some ⟨["9.9.9.9:80"], none⟩⟩,
        ⟨["9.9.9.9:80", "9.9.9.9:80"], [], [2], 0⟩)) ∧
    envAllDown.healthy "9.9.9.9:80" = false :=
  ⟨rfl, rfl⟩

/-- C3 amended: an endpoint that is in the bad set when `_fetch_proxy`
starts is filtered out of the candidate list (fresh or cached) and is never
offered to the liveness checker during that call; in particular an endpoint
recorded bad and re-obtained from the same source on a later call is absent
from the candidates.  (An endpoint entering the bad set during a call can
still be re-tested within that same call if it occurs more than once among
the selected candidates.) -/
theorem fetch_proxy_bad_endpoint_not_offered (env : Env) (c : Cache)
    (p : Endpoint) (hp : p ∈ getBadProxies c) (r : Option Endpoint)
    (c' : Cache) (t' : Trace)
    (h : fetch_proxy env c emptyTrace = Except.ok (r, c', t')) :
    p ∉ t'.checker_calls := by
  intro hmem
  rcases fetch_proxy_calls env c emptyTrace r c' t' h p hmem with hc | hc
  · exact absurd hc (List.not_mem_nil p)
  · exact hc hp

/-- C3 witness. -/
theorem fetch_proxy_bad_endpoint_not_offered_witness :
    ("b" : Endpoint) ∉ (⟨[], [], [0], 1⟩ : Trace).checker_calls :=
  fetch_proxy_bad_endpoint_not_offered envSrcB badOnlyCache "b" (by decide)
    none ⟨none, some ⟨[], some 86400⟩, some ⟨["b"], none⟩⟩ ⟨[], [], [0], 1⟩ rfl

/-- C4: candidate-list parsing excludes every endpoint that begins with one
of the two non-functional network prefixes (the code's substring test
subsumes the prefix test); and in Scenario A — empty cache, records
`1.2.3.4:8080` and `172.67.1.1:8080`, batch size 10 — the liveness checker
is offered exactly `1.2.3.4:8080`, whatever the probe outcomes. -/
theorem parse_excludes_edge_ranges :
    (∀ (rs : List Endpoint) (p : Endpoint),
        (beginsWith p.toList "172.67".toList = true ∨
         beginsWith p.toList "172.64".toList = true) →
        p ∉ parseProxyList rs) ∧
    (∀ healthy : Endpoint → Bool, ∃ r c' t',
        get_proxy (envScenA healthy) Cache.empty = Except.ok (r, c', t') ∧
        t'.checker_calls = ["1.2.3.4:8080"]) := by
  constructor
  · intro rs p hp hmem
    unfold parseProxyList at hmem
    have hfail := (List.mem_filter.mp hmem).2
    have hmark : hasEdgeMark p = true := by
      unfold hasEdgeMark strContains
      rcases hp with h | h
      · rw [containsL_of_beginsWith h, Bool.true_or]
      · rw [containsL_of_beginsWith h, Bool.or_true]
    rw [hmark] at hfail
    simp at hfail
  · intro healthy
    have hred : get_proxy (envScenA healthy) Cache.empty =
        Except.ok (sequentialTest (envScenA healthy) ["1.2.3.4:8080"] (0 + 1)
          ⟨none, some ⟨["1.2.3.4:8080"], some 86400⟩, none⟩ ⟨[], [], [1], 1⟩) := rfl
    refine ⟨_, _, _, hred, ?_⟩
    exact (sequentialTest_single_calls (envScenA healthy) "1.2.3.4:8080" 0
      ⟨none, some ⟨["1.2.3.4:8080"], some 86400⟩, none⟩ ⟨[], [], [1], 1⟩).trans rfl

/-- C4 witness. -/
theorem parse_excludes_edge_ranges_witness :
    ("172.67.1.1:8080" : Endpoint) ∉ parseProxyList scenarioARecords ∧
    ∃ r c' t', get_proxy (envScenA (fun _ => false)) Cache.empty =
        Except.ok (r, c', t') ∧ t'.checker_calls = ["1.2.3.4:8080"] :=
  ⟨parse_excludes_edge_ranges.1 scenarioARecords "172.67.1.1:8080"
      (Or.inl (by decide)),
   parse_excludes_edge_ranges.2 (fun _ => false)⟩

/-- C7: when the cached `working_proxy` fails its revalidation probe, the
entry is deleted and control proceeds to `_fetch_proxy`; afterwards the key
is absent unless a new endpoint was observed healthy during the same call,
in which case it holds exactly that endpoint. -/
theorem get_proxy_deletes_stale_working_proxy (env : Env) (c : Cache)
    (entry : Entry Endpoint) (hw : c.working_proxy = some entry)
    (hh : env.healthy entry.value = false) :
    get_proxy env c =
      fetch_proxy env { c with working_proxy := none }
        { emptyTrace with checker_calls := [entry.value] } ∧
    ∀ r c' t', get_proxy env c = Except.ok (r, c', t') →
      c'.working_proxy = none ∨
      ∃ q, r = some q ∧ env.healthy q = true ∧
        c'.working_proxy = some ⟨q, none⟩ := by
  have heq := get_proxy_wp_unhealthy env c entry hw hh
  refine ⟨heq, ?_⟩
  intro r c' t' h
  rw [heq] at h
  rcases fetch_proxy_wp env _ _ r c' t' h with ⟨_, h2⟩ | ⟨q, h1, h2, h3⟩
  · exact Or.inl (h2.trans rfl)
  · exact Or.inr ⟨q, h1, h2, h3⟩

/-- C7 witness (Scenario B: stale `5.6.7.8:3128` in the cache). -/
theorem get_proxy_deletes_stale_working_proxy_witness :
    (get_proxy envNoUrl cacheStaleWp =
      fetch_proxy envNoUrl { cacheStaleWp with working_proxy := none }
        { emptyTrace with checker_calls := ["5.6.7.8:3128"] }) ∧
    (∀ r c' t', get_proxy envNoUrl cacheStaleWp = Except.ok (r, c', t') →
      c'.working_proxy = none ∨
      ∃ q, r = some q ∧ envNoUrl.healthy q = true ∧
        c'.working_proxy = some ⟨q, none⟩) :=
  get_proxy_deletes_stale_working_proxy envNoUrl cacheStaleWp
    ⟨"5.6.7.8:3128", none⟩ rfl rfl

/-- C8: with no source URL configured and no healthy cached working proxy,
`get_proxy` returns `none` and performs no outbound candidate-list fetch. -/
theorem get_proxy_none_without_fetch_when_no_url (env : Env) (c : Cache)
    (hu : env.proxy_url = none)
    (hw : ∀ entry, c.working_proxy = some entry →
      env.healthy entry.value = false) :
    ∃ c' t', get_proxy env c = Except.ok (none, c', t') ∧
      t'.fetch_count = 0 := by
  rcases hwp : c.working_proxy with _ | entry
  · rw [get_proxy_no_wp env c hwp, fetch_proxy_no_url env c _ hu]
    exact ⟨c, emptyTrace, rfl, rfl⟩
  · rw [get_proxy_wp_unhealthy env c entry hwp (hw entry hwp),
      fetch_proxy_no_url env _ _ hu]
    exact ⟨_, _, rfl, rfl⟩

/-- C8 witness. -/
theorem get_proxy_none_without_fetch_when_no_url_witness :
    ∃ c' t', get_proxy envNoUrl Cache.empty = Except.ok (none, c', t') ∧
      t'.fetch_count = 0 :=
  get_proxy_none_without_fetch_when_no_url envNoUrl Cache.empty rfl
    (fun _ h => Option.noConfusion h)

/-- C9 counterexample: a successful sequential validation stores the working
endpoint with `ttl = none` — `cache.set('working_proxy', proxy)` on line 160
passes no expiry — so the entry does not expire on its own, refuting the
claim that `working_proxy` is written with a short TTL (the batch path on
line 185 is identical; only the candidate list carries a TTL). -/
theorem get_proxy_working_proxy_written_without_ttl :
    get_proxy envOneUp Cache.empty =
      Except.ok (some "3.3.3.3:80",
        ⟨some ⟨"3.3.3.3:80", none⟩, some ⟨["3.3.3.3:80"], some 86400⟩, none⟩,
        ⟨["3.3.3.3:80"], [], [1], 1⟩) := rfl

/-- C9 amended: every write of `working_proxy` (batch or sequential success
path) carries no TTL, exactly like `bad_endpoints`; the only key written
with a TTL is the candidate list, which gets the configured
`cache_expiry`.  A new `working_proxy` entry records an endpoint that was
observed healthy at write time. -/
theorem get_proxy_ttl_discipline (env : Env) (c : Cache) (r : Option Endpoint)
    (c' : Cache) (t' : Trace) (h : get_proxy env c = Except.ok (r, c', t')) :
    (∀ e, c'.working_proxy = some e → c.working_proxy = some e ∨
        (e.ttl = none ∧ env.healthy e.value = true)) ∧
    (∀ e, c'.bad_proxies = some e → c.bad_proxies = some e ∨ e.ttl = none) ∧
    (∀ e, c'.http_proxies_requested = some e →
        c.http_proxies_requested = some e ∨
        e.ttl = some env.cache_expiry) := by
  rcases hw : c.working_proxy with _ | entry
  · rw [get_proxy_no_wp env c hw] at h
    refine ⟨?_, ?_, ?_⟩
    · intro e he
      rcases fetch_proxy_wp env c emptyTrace r c' t' h with ⟨_, h2⟩ | ⟨p, _, h2, h3⟩
      · exact absurd ((he.symm.trans h2).trans hw) (by simp)
      · have h4 := he.symm.trans h3
        rw [Option.some.injEq] at h4
        subst h4
        exact Or.inr ⟨rfl, h2⟩
    · intro e he
      rcases fetch_proxy_bad env c emptyTrace r c' t' h with h2 | ⟨l2, h2⟩
      · exact Or.inl (h2.symm.trans he)
      · have h4 := he.symm.trans h2
        rw [Option.some.injEq] at h4
        subst h4
        exact Or.inr rfl
    · intro e he
      rcases fetch_proxy_http env c emptyTrace r c' t' h with h2 | ⟨l, h2⟩
      · exact Or.inl (h2.symm.trans he)
      · have h4 := he.symm.trans h2
        rw [Option.some.injEq] at h4
        subst h4
        exact Or.inr rfl
  · cases hh : env.healthy entry.value with
    | true =>
      rw [get_proxy_wp_healthy env c entry hw hh] at h
      simp only [Except.ok.injEq, Prod.mk.injEq] at h
      obtain ⟨h1, h2, h3⟩ := h
      subst h2
      refine ⟨?_, ?_, ?_⟩
      · intro e he
        rw [hw] at he
        exact Or.inl he
      · intro e he
        exact Or.inl he
      · intro e he
        exact Or.inl he
    | false =>
      rw [get_proxy_wp_unhealthy env c entry hw hh] at h
      refine ⟨?_, ?_, ?_⟩
      · intro e he
        rcases fetch_proxy_wp env _ _ r c' t' h with ⟨_, h2⟩ | ⟨p, _, h2, h3⟩
        · exact absurd ((he.symm.trans h2).trans rfl) (by simp)
        · have h4 := he.symm.trans h3
          rw [Option.some.injEq] at h4
          subst h4
          exact Or.inr ⟨rfl, h2⟩
      · intro e he
        rcases fetch_proxy_bad env _ _ r c' t' h with h2 | ⟨l2, h2⟩
        · exact Or.inl ((h2.symm.trans he).symm.symm)
        · have h4 := he.symm.trans h2
          rw [Option.some.injEq] at h4
          subst h4
          exact Or.inr rfl
      · intro e he
        rcases fetch_proxy_http env _ _ r c' t' h with h2 | ⟨l, h2⟩
        · exact Or.inl (h2.symm.trans he)
        · have h4 := he.symm.trans h2
          rw [Option.some.injEq] at h4
          subst h4
          exact Or.inr rfl

/-- C9 witness. -/
theorem get_proxy_ttl_discipline_witness :
    (∀ e, Cache.empty.working_proxy = some e →
        Cache.empty.working_proxy = some e ∨
        (e.ttl = none ∧ envNoUrl.healthy e.value = true)) ∧
    (∀ e, Cache.empty.bad_proxies = some e →
        Cache.empty.bad_proxies = some e ∨ e.ttl = none) ∧
    (∀ e, Cache.empty.http_proxies_requested = some e →
        Cache.empty.http_proxies_requested = some e ∨
        e.ttl = some envNoUrl.cache_expiry) :=
  get_proxy_ttl_discipline envNoUrl Cache.empty none Cache.empty emptyTrace rfl

/-- C6 counterexample: with `2.2.2.2:80` already in the bad set, a fresh
fetch of the two clean records caches `["1.1.1.1:80"]` — the list filtered
by the current bad set — under the candidate key, not the pre-BadSet list
`["1.1.1.1:80", "2.2.2.2:80"]` that the network-prefix filter alone keeps
(second conjunct); line 115 overwrites `proxy_list` before line 129 caches
it, refuting "the cached list is the filtered pre-BadSet list". -/
theorem get_proxy_caches_post_badset_list :
    (get_proxy envTwoRecords cacheBadSecond =
      Except.ok (none,
        ⟨none, some ⟨["1.1.1.1:80"], some 86400⟩,
          some ⟨["2.2.2.2:80", "1.1.1.1:80"], none⟩⟩,
        ⟨["1.1.1.1:80"], [], [1], 1⟩)) ∧
    parseProxyList ["1.1.1.1:80", "2.2.2.2:80"] =
      ["1.1.1.1:80", "2.2.2.2:80"] :=
  ⟨rfl, rfl⟩

/-- C6 amended: on a candidate-list cache miss with a successful fresh
fetch, the list written back under the candidate key with the configured
TTL is the fully filtered list — after the network-prefix exclusion AND
after removing current bad-set members (`freshFiltered`); future calls
re-apply the then-current bad set to this already-filtered list. -/
theorem get_proxy_caches_filtered_list (env : Env) (c : Cache) (u : String)
    (rs : List Endpoint) (hu : env.proxy_url = some u)
    (hw : c.working_proxy = none) (hm : c.http_proxies_requested = none)
    (hs : env.source = Except.ok rs) (r : Option Endpoint) (c' : Cache)
    (t' : Trace) (h : get_proxy env c = Except.ok (r, c', t')) :
    c'.http_proxies_requested =
      some ⟨freshFiltered c rs, some env.cache_expiry⟩ := by
  rw [get_proxy_no_wp env c hw,
    fetch_proxy_miss env c emptyTrace u rs hu hm hs] at h
  rw [Except.ok.injEq] at h
  have hh := afterListPhase_http env ((freshFiltered c rs).take env.batch_size)
    (freshCache env c rs)
    { emptyTrace with fetch_count := emptyTrace.fetch_count + 1 }
  rw [h] at hh
  exact hh

/-- C6 witness. -/
theorem get_proxy_caches_filtered_list_witness :
    (⟨none, some ⟨[], some 86400⟩, some ⟨["b"], none⟩⟩
      : Cache).http_proxies_requested =
      some ⟨freshFiltered badOnlyCache ["b"], some envSrcB.cache_expiry⟩ :=
  get_proxy_caches_filtered_list envSrcB badOnlyCache srcUrl ["b"] rfl rfl rfl
    rfl none ⟨none, some ⟨[], some 86400⟩, some ⟨["b"], none⟩⟩
    ⟨[], [], [0], 1⟩ rfl

/-- C10: a fresh fetch whose filtered candidate list is empty still writes
the empty list under the candidate key with the configured TTL (line 129
runs immediately after the delete on line 120), and any later call that
finds this cached empty list — the key is present, so the source branch is
skipped — returns `none` with no outbound fetch. -/
theorem get_proxy_empty_list_cached_and_poisons (env env2 : Env) (c : Cache)
    (u u2 : String) (rs : List Endpoint)
    (hu : env.proxy_url = some u) (hw : c.working_proxy = none)
    (hm : c.http_proxies_requested = none) (hs : env.source = Except.ok rs)
    (hempty : freshFiltered c rs = []) :
    ∃ c' t', get_proxy env c = Except.ok (none, c', t') ∧
      c'.http_proxies_requested = some ⟨[], some env.cache_expiry⟩ ∧
      c'.working_proxy = none ∧ t'.fetch_count = 1 ∧
      (env2.proxy_url = some u2 →
        ∃ c'' t'', get_proxy env2 c' = Except.ok (none, c'', t'') ∧
          t''.fetch_count = 0) := by
  have hred := get_proxy_no_wp env c hw
  rw [fetch_proxy_miss env c emptyTrace u rs hu hm hs, hempty,
    List.take_nil] at hred
  obtain ⟨h1, h2, h3, h4⟩ := afterListPhase_nil env (freshCache env c rs)
    { emptyTrace with fetch_count := emptyTrace.fetch_count + 1 }
  rcases hE : afterListPhase env [] (freshCache env c rs)
      { emptyTrace with fetch_count := emptyTrace.fetch_count + 1 } with
    ⟨r0, c0, t0⟩
  rw [hE] at hred h1 h2 h3 h4
  dsimp only at h1 h2 h3 h4
  subst h1
  subst h2
  refine ⟨freshCache env c rs, t0, hred, ?_, ?_, ?_, ?_⟩
  · unfold freshCache
    rw [hempty]
  · exact hw
  · exact h4
  · intro hu2
    have hred2 := get_proxy_no_wp env2 (freshCache env c rs) (by exact hw)
    rw [fetch_proxy_hit env2 (freshCache env c rs) emptyTrace u2
        ⟨freshFiltered c rs, some env.cache_expiry⟩ hu2 rfl] at hred2
    simp only [hempty, List.filter_nil, List.take_nil] at hred2
    obtain ⟨g1, g2, g3, g4⟩ := afterListPhase_nil env2 (freshCache env c rs)
      emptyTrace
    rcases hE2 : afterListPhase env2 [] (freshCache env c rs) emptyTrace with
      ⟨r1, c1, t1⟩
    rw [hE2] at hred2 g1 g2 g3 g4
    dsimp only at g1 g2 g3 g4
    subst g1
    subst g2
    exact ⟨freshCache env c rs, t1, hred2, g4⟩

/-- C10 witness: the concrete poisoning run against the edge-range-only
source, twice in a row. -/
theorem get_proxy_empty_list_cached_and_poisons_witness :
    ∃ c' t', get_proxy envEmptySrc Cache.empty = Except.ok (none, c', t') ∧
      c'.http_proxies_requested = some ⟨[], some envEmptySrc.cache_expiry⟩ ∧
      c'.working_proxy = none ∧ t'.fetch_count = 1 ∧
      (envEmptySrc.proxy_url = some srcUrl →
        ∃ c'' t'', get_proxy envEmptySrc c' = Except.ok (none, c'', t'') ∧
          t''.fetch_count = 0) :=
  get_proxy_empty_list_cached_and_poisons envEmptySrc envEmptySrc Cache.empty
    srcUrl srcUrl ["172.67.1.1:8080"] rfl rfl rfl rfl rfl

/-- C5: the batch/sequential cutover is exactly at `batch_size`.
Scenario C — 1500 fresh clean pairwise-distinct candidates, batch size
1000: the batch validator is invoked exactly once, with exactly the first
1000 candidates in list order; every endpoint offered to the liveness
checker is among those first 1000 and none of the remaining 500 is ever
offered.  Scenario D — 50 fresh clean candidates, batch size 1000: the
batch validator is never invoked and the sequential loop runs with cap
`max_attempts = min(batch_size, 50) = 50`, so at most 50 probes happen. -/
theorem batch_cutover_at_batch_size (L M : List Endpoint)
    (healthy : Endpoint → Bool)
    (hL : L.length = 1500) (hLc : ∀ p ∈ L, hasEdgeMark p = false)
    (hLn : L.Nodup)
    (hM : M.length = 50) (hMc : ∀ p ∈ M, hasEdgeMark p = false) :
    (∃ r c' t', get_proxy (envBatch L healthy) Cache.empty =
        Except.ok (r, c', t') ∧
      t'.batch_calls = [L.take 1000] ∧
      (∀ p ∈ t'.checker_calls, p ∈ L.take 1000) ∧
      (∀ p ∈ L.drop 1000, p ∉ t'.checker_calls)) ∧
    (∃ r c' t', get_proxy (envBatch M healthy) Cache.empty =
        Except.ok (r, c', t') ∧
      t'.batch_calls = [] ∧ t'.seq_caps = [50] ∧
      t'.checker_calls.length ≤ 50) := by
  constructor
  · have hfe : freshFiltered Cache.empty L = L :=
      freshFiltered_clean Cache.empty L hLc rfl
    have hred : get_proxy (envBatch L healthy) Cache.empty =
        Except.ok (afterListPhase (envBatch L healthy) (L.take 1000)
          (freshCache (envBatch L healthy) Cache.empty L) ⟨[], [], [], 1⟩) := by
      rw [get_proxy_no_wp (envBatch L healthy) Cache.empty rfl,
        fetch_proxy_miss (envBatch L healthy) Cache.empty emptyTrace srcUrl L
          rfl rfl rfl, hfe]
      rfl
    have hlen : (L.take 1000).length = 1000 := by
      rw [List.length_take, hL]
      omega
    have hge : (envBatch L healthy).batch_size ≤ (L.take 1000).length := by
      rw [hlen]
      exact Nat.le_refl 1000
    have hcalls : ∀ q ∈ (afterListPhase (envBatch L healthy) (L.take 1000)
        (freshCache (envBatch L healthy) Cache.empty L)
        ⟨[], [], [], 1⟩).2.2.checker_calls, q ∈ L.take 1000 := by
      intro q hq
      rcases afterListPhase_calls _ _ _ _ q hq with hc | hc
      · exact absurd hc (List.not_mem_nil q)
      · exact hc
    have hdisj : ∀ p ∈ L.drop 1000, p ∉ L.take 1000 := by
      have hn := hLn
      rw [← List.take_append_drop 1000 L] at hn
      have hd := (List.nodup_append.mp hn).2.2
      intro p hp hmem
      exact hd hmem hp
    have hbatch1 : (afterListPhase (envBatch L healthy) (L.take 1000)
        (freshCache (envBatch L healthy) Cache.empty L)
        ⟨[], [], [], 1⟩).2.2.batch_calls = [L.take 1000] := by
      rcases hbv : (batchFindWorking (envBatch L healthy) (L.take 1000)
          (freshCache (envBatch L healthy) Cache.empty L)).1 with _ | p
      · rw [afterListPhase_ge_none _ _ _ _ hge hbv,
          (sequentialTest_rest_trace _ _ _ _ _).1]
        rfl
      · rw [afterListPhase_ge_some _ _ _ _ p hge hbv]
        rfl
    exact ⟨_, _, _, hred, hbatch1, hcalls,
      fun p hp hmem => hdisj p hp (hcalls p hmem)⟩
  · have hfe : freshFiltered Cache.empty M = M :=
      freshFiltered_clean Cache.empty M hMc rfl
    have htake : M.take (envBatch M healthy).batch_size = M :=
      List.take_of_length_le (by rw [hM]; exact (by decide : (50:Nat) ≤ 1000))
    have hlt : M.length < (envBatch M healthy).batch_size := by
      rw [hM]
      exact (by decide : (50:Nat) < 1000)
    have hred : get_proxy (envBatch M healthy) Cache.empty =
        Except.ok (sequentialTest (envBatch M healthy) M
          (min (envBatch M healthy).batch_size M.length)
          (freshCache (envBatch M healthy) Cache.empty M)
          ⟨[], [], [min (envBatch M healthy).batch_size M.length], 1⟩) := by
      rw [get_proxy_no_wp (envBatch M healthy) Cache.empty rfl,
        fetch_proxy_miss (envBatch M healthy) Cache.empty emptyTrace srcUrl M
          rfl rfl rfl, hfe, htake, afterListPhase_lt _ _ _ _ hlt]
      rfl
    refine ⟨_, _, _, hred, ?_, ?_, ?_⟩
    · exact (sequentialTest_rest_trace _ _ _ _ _).1.trans rfl
    · refine (sequentialTest_rest_trace _ _ _ _ _).2.1.trans ?_
      dsimp only
      rw [hM]
      rfl
    · refine le_trans (sequentialTest_calls_len _ _ _ _ _) ?_
      rw [hM]
      exact Nat.le_refl 50

/-- C5 witness: concrete families of 1500 and 50 pairwise-distinct clean
endpoint names. -/
theorem batch_cutover_at_batch_size_witness :
    (∃ r c' t', get_proxy (envBatch (cands 1500) (fun _ => false))
        Cache.empty = Except.ok (r, c', t') ∧
      t'.batch_calls = [(cands 1500).take 1000] ∧
      (∀ p ∈ t'.checker_calls, p ∈ (cands 1500).take 1000) ∧
      (∀ p ∈ (cands 1500).drop 1000, p ∉ t'.checker_calls)) ∧
    (∃ r c' t', get_proxy (envBatch (cands 50) (fun _ => false))
        Cache.empty = Except.ok (r, c', t') ∧
      t'.batch_calls = [] ∧ t'.seq_caps = [50] ∧
      t'.checker_calls.length ≤ 50) :=
  batch_cutover_at_batch_size (cands 1500) (cands 50) (fun _ => false)
    (cands_length 1500) (cands_clean 1500) (cands_nodup 1500)
    (cands_length 50) (cands_clean 50)

end ProxySpec
